import Mathlib

/-!
Verification of the claude-ace strategy-store core.

This file gives a shallow embedding of the repository's delta/playbook
engine (`ace_core/hooks/delta_manager.py`, `ace_core/hooks/common.py`)
and of the retrieval layer (`ace_core/storage/vector_store.py`,
`ace_core/storage/ollama_embedding.py`), and proves or refutes the
frozen claims about them.

Modelling conventions:
- Python dicts with a fixed key set become structures; a key that the
  code may leave absent becomes an `Option` field (`none` = key absent).
- Python floats are modelled as exact rationals `ℚ`.
- Python `datetime.now().isoformat()` timestamps are injected as plain
  `String` parameters.
- Fallible external calls (HTTP, vector database) are modelled as
  `Except String`-valued function parameters; a Python `raise` caught by
  a surrounding `try/except` is an `Except.error` consumed by a `match`.
- Python string methods used by the code (`lower`, `strip`, `split`,
  `int(...)`) are re-implemented structurally over `List Char`, ASCII
  faithful, so that all definitions evaluate by kernel reduction.
-/

namespace Ace

/-! ### Python string primitives (ASCII-faithful, structural) -/

/-- Python whitespace characters stripped by `str.strip()` (ASCII subset). -/
def pySpace (c : Char) : Bool :=
  c = ' ' || c = '\t' || c = '\n' || c = '\x0d' || c = '\x0b' || c = '\x0c'

/-- Python `str.strip()` on the character list. -/
def pyStripChars (l : List Char) : List Char :=
  ((l.dropWhile pySpace).reverse.dropWhile pySpace).reverse

/-- Python `str.lower()` on a single ASCII character. -/
def pyLowerChar (c : Char) : Char :=
  if 65 ≤ c.toNat ∧ c.toNat ≤ 90 then Char.ofNat (c.toNat + 32) else c

/-- Python `text.lower().strip()` as used by the duplicate check in
`update_playbook_data` (`common.py` lines 214 and 237). -/
def normText (s : String) : String :=
  ⟨pyStripChars (s.data.map pyLowerChar)⟩

/-- Python `str.split("_")` (keeps empty components). -/
def splitUnderscore : List Char → List (List Char)
  | [] => [[]]
  | c :: cs =>
    if c = '_' then [] :: splitUnderscore cs
    else
      match splitUnderscore cs with
      | [] => [[c]]
      | h :: t => (c :: h) :: t

/-- Digit run to a number; `none` on an empty or non-digit run. -/
def digitsToNat? (l : List Char) : Option Nat :=
  if l ≠ [] ∧ l.all Char.isDigit then
    some (l.foldl (fun acc c => acc * 10 + (c.toNat - 48)) 0)
  else none

/-- Python `int(s)` for an underscore-free token: optional surrounding
whitespace, optional sign, then a non-empty digit run; `none` models the
`ValueError` branch. -/
def pyInt? (s : String) : Option Int :=
  match pyStripChars s.data with
  | [] => none
  | c :: rest =>
    if c = '-' then (digitsToNat? rest).map (fun n => -(n : Int))
    else if c = '+' then (digitsToNat? rest).map (fun n => (n : Int))
    else (digitsToNat? (c :: rest)).map (fun n => (n : Int))

/-! ### Data model (`playbook.json` key points and deltas) -/

/-- One entry of a key point's `evaluations` list
(`delta_manager.py` lines 253-260). -/
structure Evaluation where
  timestamp : String
  rating : String
  delta : Int
  justification : String
  old_score : Int
  new_score : Int
deriving DecidableEq, Repr

/-- A key point dictionary. `Option` fields model dict keys the code may
leave absent (`kp.get(...)` semantics). -/
structure KeyPoint where
  name : String
  text : String
  score : Int := 0
  status : Option String := none
  created_at : Option String := none
  reason : Option String := none
  archived_at : Option String := none
  archive_reason : Option String := none
  evaluations : List Evaluation := []
  atomicity_score : Option ℚ := none
  evidence : Option String := none
deriving DecidableEq, Repr

/-- The playbook dictionary (`load_playbook` guarantees these keys). -/
structure Playbook where
  version : String := "1.0"
  last_updated : Option String := none
  last_delta_source : Option String := none
  key_points : List KeyPoint := []
deriving DecidableEq, Repr

/-- One staged delta operation (`PlaybookDelta.add_keypoint`,
`remove_keypoint`, `update_score` in `delta_manager.py`). -/
inductive Operation where
  | add (target : String) (data : KeyPoint) (reason : String)
  | archive (target : String) (reason : String)
  | score_update (target : String) (delta : Int) (rating : String)
      (justification : String)
deriving DecidableEq, Repr

/-- A `PlaybookDelta`: timestamp, source tag and staged operations. -/
structure PlaybookDelta where
  timestamp : String
  source : String
  operations : List Operation
deriving DecidableEq, Repr

/-! ### Delta applier (`apply_delta`, `delta_manager.py` lines 206-266) -/

/-- Body of the `archive` branch for one key point: set `status`,
`archived_at`, `archive_reason` (lines 239-241).  Note the source does
not test whether the target is already archived. -/
def archSet (ts target reason : String) (kp : KeyPoint) : KeyPoint :=
  if kp.name = target then
    { kp with status := some "archived", archived_at := some ts,
              archive_reason := some reason }
  else kp

/-- Body of the `score_update` branch for one key point: bump the score
and append one evaluation record (lines 245-260). -/
def scoreSet (ts target : String) (d : Int) (rating justification : String)
    (kp : KeyPoint) : KeyPoint :=
  if kp.name = target then
    { kp with score := kp.score + d,
              evaluations := kp.evaluations ++
                [{ timestamp := ts, rating := rating, delta := d,
                   justification := justification, old_score := kp.score,
                   new_score := kp.score + d }] }
  else kp

/-- One step of the operation loop of `apply_delta`.  The Python
`name_to_kp` map is the name-indexed view of the key-point list; a map
hit is membership of the target name. -/
def applyOp (ts : String) (kps : List KeyPoint) : Operation → List KeyPoint
  | .add target data reason =>
    if ∃ kp ∈ kps, kp.name = target then kps
    else kps ++ [{ data with created_at := some ts, status := some "active",
                             reason := some reason }]
  | .archive target reason => kps.map (archSet ts target reason)
  | .score_update target d rating justification =>
    kps.map (scoreSet ts target d rating justification)

/-- The operation loop of `apply_delta` over a whole operation list. -/
def applyOps (ts : String) (ops : List Operation) (kps : List KeyPoint) :
    List KeyPoint :=
  ops.foldl (applyOp ts) kps

/-- `apply_delta(playbook, delta)`: run all operations in order, then set
`last_updated` and `last_delta_source` (lines 262-264). -/
def apply_delta (playbook : Playbook) (delta : PlaybookDelta) : Playbook :=
  { playbook with
      key_points := applyOps delta.timestamp delta.operations playbook.key_points,
      last_updated := some delta.timestamp,
      last_delta_source := some delta.source }

/-! ### History ledger (`PlaybookHistory`, `delta_manager.py`) -/

/-- Active (non-archived) entries, as filtered by
`_calculate_avg_score` (`kp.get("status") != "archived"`). -/
def activeEntries (p : Playbook) : List KeyPoint :=
  p.key_points.filter (fun kp => kp.status ≠ some "archived")

/-- Archived entries of a playbook. -/
def archivedEntries (p : Playbook) : List KeyPoint :=
  p.key_points.filter (fun kp => kp.status = some "archived")

/-- `PlaybookHistory._calculate_avg_score` (lines 191-203): mean score of
the active key points, `0.0` when there are none. -/
def calculate_avg_score (p : Playbook) : ℚ :=
  if p.key_points = [] then 0
  else
    let active := p.key_points.filter (fun kp => kp.status ≠ some "archived")
    if active = [] then 0
    else ((active.map KeyPoint.score).sum : ℚ) / (active.length : ℚ)

/-- One line of `playbook_history.jsonl` as written by `record_delta`
(lines 114-118): the delta dictionary plus `playbook_size` and
`avg_score`. -/
structure HistoryRecord where
  timestamp : String
  source : String
  operations : List Operation
  operation_count : Nat
  playbook_size : Nat
  avg_score : ℚ
deriving DecidableEq, Repr

/-- `PlaybookHistory.record_delta(delta, playbook_snapshot)`: the record
appended to the ledger.  Note `playbook_size` is
`len(playbook_snapshot.get("key_points", []))` — the full list, archived
entries included. -/
def record_delta (delta : PlaybookDelta) (snapshot : Playbook) : HistoryRecord :=
  { timestamp := delta.timestamp, source := delta.source,
    operations := delta.operations,
    operation_count := delta.operations.length,
    playbook_size := snapshot.key_points.length,
    avg_score := calculate_avg_score snapshot }

/-! ### Name generation and configuration (`common.py`) -/

/-- The number a name contributes to `generate_keypoint_name`'s maximum:
`int(name.split("_")[1])` for names starting with `kpt_`, skipped (`none`)
on a parse failure (`common.py` lines 89-96). -/
def kptNum? (name : String) : Option Int :=
  if ("kpt_".data).isPrefixOf name.data then
    match (splitUnderscore name.data)[1]? with
    | some comp => pyInt? ⟨comp⟩
    | none => none
  else none

/-- Zero-pad a decimal string to width 3 (Python `f"{n:03d}"` for a
positive `n`). -/
def pad3 (s : String) : String :=
  if s.length < 3 then ⟨List.replicate (3 - s.length) '0' ++ s.data⟩ else s

/-- The loop body of `generate_keypoint_name`:
`max_num = max(max_num, num)` for a parsed name, skip otherwise. -/
def kptFold (acc : Int) (name : String) : Int :=
  match kptNum? name with
  | some num => max acc num
  | none => acc

/-- `generate_keypoint_name(existing_names)` (`common.py` lines 79-98):
the maximum parsed `kpt_N` number (starting from 0) plus one, formatted
`kpt_NNN`.  The Python argument is a set; the fold over a list computes
the same maximum.  `max_num + 1 ≥ 1` always, so `Int.toNat` is exact. -/
def generate_keypoint_name (existing_names : List String) : String :=
  "kpt_" ++ pad3 (toString ((existing_names.foldl kptFold 0) + 1).toNat)

/-- The `scoring` section of the configuration. -/
structure ScoringConfig where
  helpful_delta : Int
  neutral_delta : Int
  harmful_delta : Int
deriving DecidableEq, Repr

/-- The `reflection` section of the configuration. -/
structure ReflectionConfig where
  min_atomicity_score : ℚ
  max_keypoints_to_inject : Nat
  auto_cleanup_threshold : Int
deriving DecidableEq, Repr

/-- The configuration sections used by `update_playbook_data`. -/
structure AceConfig where
  reflection : ReflectionConfig
  scoring : ScoringConfig
deriving DecidableEq, Repr

/-- `load_config`'s `default_config` (`common.py` lines 47-64). -/
def default_config : AceConfig :=
  { reflection := { min_atomicity_score := 7 / 10,
                    max_keypoints_to_inject := 15,
                    auto_cleanup_threshold := -5 },
    scoring := { helpful_delta := 1, neutral_delta := -1, harmful_delta := -3 } }

/-! ### Delta builder (`update_playbook_data`, `common.py` lines 186-297) -/

/-- One candidate of `extraction_result["new_key_points"]` after the
string-or-dict normalization: a bare string is the record with default
`atomicity_score`/`evidence`. -/
structure NewKeyPoint where
  text : String
  atomicity_score : Option ℚ := none
  evidence : String := ""
deriving DecidableEq, Repr

/-- One item of `extraction_result["evaluations"]`. -/
structure EvalItem where
  name : String
  rating : String
  justification : String := ""
deriving DecidableEq, Repr

/-- The extraction result consumed by `update_playbook_data`. -/
structure ExtractionResult where
  new_key_points : List NewKeyPoint
  evaluations : List EvalItem
deriving DecidableEq, Repr

/-- The `rating_delta` lookup with default 0 (`common.py` lines 262-274). -/
def ratingDelta (scoring : ScoringConfig) (rating : String) : Int :=
  if rating = "helpful" then scoring.helpful_delta
  else if rating = "harmful" then scoring.harmful_delta
  else if rating = "neutral" then scoring.neutral_delta
  else 0

/-- Loop state of the additions loop: staged add operations, the
`existing_names` set and the normalized keys of the `existing_texts`
dict (only key membership is ever read). -/
structure AddState where
  ops : List Operation
  names : List String
  texts : List String
deriving Repr

/-- One iteration of the additions loop (`common.py` lines 220-259):
skip empty text, skip a case-insensitive duplicate of an active text,
otherwise stage an `add` operation under a freshly generated name. -/
def addStep (source : String) (st : AddState) (item : NewKeyPoint) : AddState :=
  if item.text = "" then st
  else if normText item.text ∈ st.texts then st
  else
    let name := generate_keypoint_name st.names
    let kp : KeyPoint :=
      { name := name, text := item.text, score := 0,
        atomicity_score := item.atomicity_score,
        evidence := if item.evidence = "" then none else some item.evidence }
    { ops := st.ops ++ [.add name kp ("Extracted from " ++ source)],
      names := st.names ++ [name],
      texts := st.texts ++ [normText item.text] }

/-- The evaluations loop (`common.py` lines 268-275): a `score_update`
operation for each evaluation whose name exists (staged names included). -/
def scoreOps (scoring : ScoringConfig) (names : List String)
    (evals : List EvalItem) : List Operation :=
  evals.filterMap (fun e =>
    if e.name ∈ names then
      some (.score_update e.name (ratingDelta scoring e.rating) e.rating
        e.justification)
    else none)

/-- The retention-policy loop (`common.py` lines 279-288): an `archive`
operation for every key point of the *pre-apply* playbook that is not
explicitly archived and whose *pre-update* score is at or below the
threshold. -/
def retention_ops (key_points : List KeyPoint) (threshold : Int) :
    List Operation :=
  key_points.filterMap (fun kp =>
    if kp.status ≠ some "archived" ∧ kp.score ≤ threshold then
      some (.archive kp.name
        ("Score " ++ toString kp.score ++ " below threshold " ++
          toString threshold))
    else none)

/-- The delta staged by `update_playbook_data` before it is applied
(lines 210-288): additions, then score updates, then retention archives. -/
def build_delta (playbook : Playbook) (extraction : ExtractionResult)
    (source timestamp : String) (config : AceConfig) : PlaybookDelta :=
  let init : AddState :=
    { ops := [],
      names := playbook.key_points.map KeyPoint.name,
      texts := (playbook.key_points.filter
          (fun kp => kp.status ≠ some "archived")).map
        (fun kp => normText kp.text) }
  let st := extraction.new_key_points.foldl (addStep source) init
  let sOps := scoreOps config.scoring st.names extraction.evaluations
  let aOps := retention_ops playbook.key_points
    config.reflection.auto_cleanup_threshold
  { timestamp := timestamp, source := source,
    operations := st.ops ++ sOps ++ aOps }

/-- `update_playbook_data` (lines 186-297): build the delta, apply it,
and record it to the history ledger with the post-apply playbook as the
snapshot.  Returns the new playbook and the appended history record. -/
def update_playbook_data (playbook : Playbook) (extraction : ExtractionResult)
    (source timestamp : String) (config : AceConfig) :
    Playbook × HistoryRecord :=
  let delta := build_delta playbook extraction source timestamp config
  let pb := apply_delta playbook delta
  (pb, record_delta delta pb)

/-! ### Operation classification helpers (for the algebraic claims) -/

/-- True for `add` and `archive` operations, false for `score_update`. -/
def Operation.isAddOrArchive : Operation → Bool
  | .score_update _ _ _ _ => false
  | _ => true

/-- True exactly for `add` operations. -/
def Operation.isAdd : Operation → Bool
  | .add _ _ _ => true
  | _ => false

/-- The target of an `add` operation. -/
def Operation.addTarget? : Operation → Option String
  | .add t _ _ => some t
  | _ => none

/-- Targets of the `add` operations of a list, in order. -/
def addTargets (ops : List Operation) : List String :=
  ops.filterMap Operation.addTarget?

/-- The `(target, reason)` pairs of the `archive` operations, in order. -/
def archPairs (ops : List Operation) : List (String × String) :=
  ops.filterMap (fun op =>
    match op with
    | .archive t r => some (t, r)
    | _ => none)

/-- Fails only when the first operation archives the very name a later
`add` operation introduces; ordered pairwise over a delta it rules out
the one ordering under which replaying the delta archives a freshly
added entry. -/
def noArchThenAddB (a b : Operation) : Bool :=
  match a, b with
  | .archive t _, .add u _ _ => t ≠ u
  | _, _ => true

/-- True when an `add` operation's payload is named after its own
target; `PlaybookDelta.add_keypoint` always stages
`target = keypoint["name"]`, so every delta the builder constructs
satisfies this.  (For an `add` violating it, the applier's
name-to-entry map never acquires the target as an entry name, so
replaying the delta appends a second copy.) -/
def Operation.addNameOk : Operation → Bool
  | .add t d _ => d.name = t
  | _ => true

/-- Apply a list of archive `(target, reason)` pairs to one key point. -/
def archListApply (ts : String) (pairs : List (String × String))
    (kp : KeyPoint) : KeyPoint :=
  pairs.foldl (fun k p => archSet ts p.1 p.2 k) kp

/-- The last archive pair whose target is `n`, if any. -/
def lastMatch (n : String) (pairs : List (String × String)) :
    Option (String × String) :=
  (pairs.filter (fun p => p.1 = n)).getLast?

/-! ### End-to-end scenario fixtures (spec §8 last-but-one bullet) -/

/-- Cycle 1 extraction: one new key point. -/
def scenEx1 : ExtractionResult :=
  { new_key_points := [{ text := "Run tests before pushing" }],
    evaluations := [] }

/-- Cycle 2 extraction: one helpful evaluation of `kpt_001`. -/
def scenEx2 : ExtractionResult :=
  { new_key_points := [],
    evaluations := [{ name := "kpt_001", rating := "helpful" }] }

/-- Cycle 3 extraction: two harmful evaluations of `kpt_001`. -/
def scenEx3 : ExtractionResult :=
  { new_key_points := [],
    evaluations := [{ name := "kpt_001", rating := "harmful" },
                    { name := "kpt_001", rating := "harmful" }] }

/-- Cycle 4 extraction: empty (a later cycle with nothing new). -/
def scenEx4 : ExtractionResult := { new_key_points := [], evaluations := [] }

/-- Delta 1: add the key point to the empty store. -/
def scenStep1 : Playbook × HistoryRecord :=
  update_playbook_data {} scenEx1 "session_end" "t1" default_config

/-- Delta 2: helpful evaluation (+1). -/
def scenStep2 : Playbook × HistoryRecord :=
  update_playbook_data scenStep1.1 scenEx2 "session_end" "t2" default_config

/-- Delta 3: two harmful evaluations (-3 each). -/
def scenStep3 : Playbook × HistoryRecord :=
  update_playbook_data scenStep2.1 scenEx3 "session_end" "t3" default_config

/-- Delta 4: an empty follow-up cycle. -/
def scenStep4 : Playbook × HistoryRecord :=
  update_playbook_data scenStep3.1 scenEx4 "session_end" "t4" default_config

/-- The `playbook_size` column of the three ledger records of the
scenario. -/
def scenSizes : List Nat :=
  [scenStep1.2.playbook_size, scenStep2.2.playbook_size,
   scenStep3.2.playbook_size]

/-! ### Counterexample fixtures -/

/-- A store with one active entry at +5 and one archived entry at -10. -/
def mixedSnapshot : Playbook :=
  { key_points :=
      [{ name := "kpt_001", text := "a", score := 5, status := some "active" },
       { name := "kpt_002", text := "b", score := -10,
         status := some "archived" }] }

/-- A delta with no operations (its content is irrelevant to the ledger
statistics). -/
def emptyDelta : PlaybookDelta :=
  { timestamp := "t", source := "s", operations := [] }

/-- An already-archived entry, archived at `t1` for reason `r1`. -/
def cexArchKp : KeyPoint :=
  { name := "kpt_001", text := "x", score := 0, status := some "archived",
    archived_at := some "t1", archive_reason := some "r1" }

/-- A store holding only the already-archived entry. -/
def cexArchStore : Playbook := { key_points := [cexArchKp] }

/-- A later delta that re-archives the archived entry with a different
timestamp and reason. -/
def cexArchDelta : PlaybookDelta :=
  { timestamp := "t2", source := "s2",
    operations := [.archive "kpt_001" "r2"] }

/-- Payload for the replay counterexample's `add`. -/
def cexReplayKp : KeyPoint := { name := "kpt_001", text := "x" }

/-- A delta whose single `add` carries a payload named differently from
its target; replaying it appends a second copy of the payload. -/
def cexMismatchDelta : PlaybookDelta :=
  { timestamp := "t", source := "s",
    operations := [.add "kpt_001" { name := "kpt_002", text := "y" } "r"] }

/-- A well-formed add-then-archive delta (adds precede archives, payload
names match targets), used to witness replay idempotence. -/
def wfDelta : PlaybookDelta :=
  { timestamp := "t5", source := "s5",
    operations := [.add "kpt_001" cexReplayKp "r",
                   .archive "kpt_001" "low"] }

/-- An active entry sitting exactly at the default retention threshold. -/
def lowKp : KeyPoint :=
  { name := "kpt_009", text := "c", score := -5, status := some "active" }

/-- A delta of only `add`/`archive` operations in which an `archive`
precedes an `add` of the same target. -/
def cexReplayDelta : PlaybookDelta :=
  { timestamp := "t", source := "s",
    operations := [.archive "kpt_001" "gone",
                   .add "kpt_001" cexReplayKp "fresh"] }

/-! ### Embedding provider (`ollama_embedding.py`) -/

/-- `EmbeddingResult` dataclass (`ollama_embedding.py` lines 26-32).
`duration_ms` is a float, modelled as `ℚ`. -/
structure EmbeddingResult where
  text : String
  embedding : List ℚ
  model : String
  duration_ms : ℚ
deriving DecidableEq, Repr

/-- `OllamaEmbeddingClient._process_batch` (lines 185-199): the gathered
per-text task results in input order, with exceptions (`none`) dropped
and only the successful `EmbeddingResult`s kept. -/
def process_batch (results : List (Option EmbeddingResult)) :
    List EmbeddingResult :=
  results.filterMap id

/-- Fuel-indexed batching of `range(0, len(texts), batch_size)`; the fuel
(instantiated with the list length) only discharges termination and is
never exhausted for a positive batch size. -/
def chunksOfAux (batch_size : Nat) : Nat → List α → List (List α)
  | _, [] => []
  | 0, _ :: _ => []
  | fuel + 1, x :: xs =>
    ((x :: xs).take batch_size) ::
      chunksOfAux batch_size fuel ((x :: xs).drop batch_size)

/-- The successive slices `texts[i:i+batch_size]` of the batch loop in
`embed_batch` (lines 178-181). -/
def chunksOf (batch_size : Nat) (l : List α) : List (List α) :=
  chunksOfAux batch_size l.length l

/-- `OllamaEmbeddingClient.embed_batch(texts, batch_size)` (lines
156-183), with the per-text outcome of `_embed_single` after its retries
abstracted as `outcome` (`none` = the task raised after all retries). -/
def embed_batch (outcome : String → Option EmbeddingResult)
    (texts : List String) (batch_size : Nat) : List EmbeddingResult :=
  if texts = [] then []
  else ((chunksOf batch_size texts).map
      (fun batch => process_batch (batch.map outcome))).flatten

/-! ### Vector store coordinator (`vector_store.py`) -/

/-- A `qdrant_store.SearchResult` with its fixed-key `metadata` dict
inlined (`qdrant_store.py` lines 290-303 always populate these keys). -/
structure QdrantHit where
  id : String
  score : ℚ
  text : String
  playbook_score : Int
  status : String
  source : String
deriving DecidableEq, Repr

/-- One formatted strategy dict returned by `PlaybookVectorStore.search`. -/
structure StrategyHit where
  name : String
  text : String
  similarity : ℚ
  score : Int
  status : String
  source : String
deriving DecidableEq, Repr

/-- The result-formatting comprehension of `_search_qdrant`
(`vector_store.py` lines 341-348). -/
def formatQdrantHit (r : QdrantHit) : StrategyHit :=
  { name := r.id, text := r.text, similarity := r.score,
    score := r.playbook_score, status := r.status, source := r.source }

/-- The external calls made by the Qdrant backend of `_search_qdrant`:
the query embedding (`ok none` models the `None` return of a failed
`embed_text`, `error` a raised exception) and the Qdrant store search
(which raises on failure). -/
structure QdrantClients where
  embed_text : String → Except String (Option (List ℚ))
  store_search : List ℚ → Nat → Option Int → Except String (List QdrantHit)

/-- `PlaybookVectorStore._search_qdrant` (lines 323-354): run the inner
`_do_search`; any raised exception is caught and becomes `[]`.  Note the
Python guard `if not query_embedding` also fires on an empty vector. -/
def search_qdrant (c : QdrantClients) (query : String) (limit : Nat)
    (min_score : Option Int) : List StrategyHit :=
  let do_search : Except String (List StrategyHit) := do
    let qe ← c.embed_text query
    match qe with
    | some (x :: xs) => do
      let results ← c.store_search (x :: xs) limit min_score
      pure (results.map formatQdrantHit)
    | _ => Except.error "Failed to generate query embedding"
  match do_search with
  | .ok r => r
  | .error _ => []

/-- The per-hit metadata dict of a ChromaDB result (keys read with
`.get` defaults in `_search_chroma`). -/
structure ChromaMeta where
  score : Option Int := none
  status : Option String := none
  source : Option String := none
deriving DecidableEq, Repr

/-- The inner (`[0]`-indexed) result lists of `collection.query`. -/
structure ChromaQueryReply where
  ids : List String
  documents : List String
  distances : List ℚ
  metadatas : List ChromaMeta
deriving DecidableEq, Repr

/-- The external call of the ChromaDB backend: `collection.query` with
the optional `score >= min_score` where-filter, raising on failure. -/
structure ChromaClients where
  query : String → Nat → Option Int → Except String ChromaQueryReply

/-- The formatting loop of `_search_chroma` (lines 373-384); indexing a
parallel list shorter than `ids` raises `IndexError`, caught by the
surrounding handler. -/
def formatChromaHits (reply : ChromaQueryReply) :
    Except String (List StrategyHit) :=
  if reply.documents.length < reply.ids.length ∨
      reply.distances.length < reply.ids.length ∨
      reply.metadatas.length < reply.ids.length then
    Except.error "IndexError"
  else
    Except.ok (((reply.ids.zip reply.documents).zip
        (reply.distances.zip reply.metadatas)).map
      (fun x =>
        { name := x.1.1, text := x.1.2, similarity := 1 - x.2.1,
          score := x.2.2.score.getD 0, status := x.2.2.status.getD "active",
          source := x.2.2.source.getD "unknown" }))

/-- `PlaybookVectorStore._search_chroma` (lines 356-388): query, return
`[]` on an empty id list, format; any raised exception becomes `[]`. -/
def search_chroma (c : ChromaClients) (query : String) (limit : Nat)
    (min_score : Option Int) : List StrategyHit :=
  let body : Except String (List StrategyHit) := do
    let reply ← c.query query limit min_score
    if reply.ids = [] then pure []
    else formatChromaHits reply
  match body with
  | .ok r => r
  | .error _ => []

/-- The selected backend held in `self.backend` (the Python dict with a
`type` tag and the per-type clients). -/
inductive VectorBackend where
  | qdrant (clients : QdrantClients)
  | chroma (clients : ChromaClients)

/-- `PlaybookVectorStore` state: `backend is None` is the disabled
coordinator. -/
structure PlaybookVectorStore where
  backend : Option VectorBackend
  backend_type : String

/-- `PlaybookVectorStore.search` (lines 296-321): `[]` when disabled,
else dispatch on the backend type.  Totality of this function is the
model of "never raises": every failure path of the Python code is caught
and mapped to `[]`. -/
def PlaybookVectorStore.search (store : PlaybookVectorStore) (query : String)
    (limit : Nat) (min_score : Option Int) : List StrategyHit :=
  match store.backend with
  | none => []
  | some (.qdrant c) => search_qdrant c query limit min_score
  | some (.chroma c) => search_chroma c query limit min_score

/-! ### Qdrant indexing (`_index_qdrant`, `vector_store.py` lines 234-258) -/

/-- The `_do_index` coroutine body of `_index_qdrant`: embed the strategy
texts, raise on an embedding-count mismatch *before* any upsert, else
hand the strategies and embeddings to `QdrantVectorStore.index_strategies`
(abstracted as the fallible `index_strategies` parameter). -/
def do_index (outcome : String → Option EmbeddingResult)
    (index_strategies : List KeyPoint → List (List ℚ) → Except String Nat)
    (strategies : List KeyPoint) : Except String Nat :=
  let texts := strategies.map (fun s => s.text)
  let results := embed_batch outcome texts 10
  if results.length ≠ strategies.length then
    Except.error "Embedding count mismatch"
  else
    index_strategies strategies (results.map (fun r => r.embedding))

/-- `PlaybookVectorStore._index_qdrant`: run `_do_index`; any raised
exception is caught and the call returns 0. -/
def index_qdrant (outcome : String → Option EmbeddingResult)
    (index_strategies : List KeyPoint → List (List ℚ) → Except String Nat)
    (strategies : List KeyPoint) : Nat :=
  match do_index outcome index_strategies strategies with
  | .ok n => n
  | .error _ => 0

/-- A Qdrant backend whose embedding service is unreachable. -/
def embedDownQdrant : QdrantClients :=
  { embed_text := fun _ => Except.error "Cannot connect to Ollama",
    store_search := fun _ _ _ => Except.ok [] }

/-- A Qdrant backend whose embedding succeeds but whose store search
raises. -/
def storeDownQdrant : QdrantClients :=
  { embed_text := fun _ => Except.ok (some [1, 0]),
    store_search := fun _ _ _ => Except.error "Cannot connect to Qdrant" }

/-- A ChromaDB backend whose query raises. -/
def failingChroma : ChromaClients :=
  { query := fun _ _ _ => Except.error "collection unavailable" }

/-- The coordinator after both backends failed to initialize
(`_auto_select_backend` sets `backend = None`, `backend_type = "none"`). -/
def disabledStore : PlaybookVectorStore :=
  { backend := none, backend_type := "none" }

/-- An embedding outcome in which every text fails after retries. -/
def noEmbed : String → Option EmbeddingResult := fun _ => none

/-- An upsert that would happily index whatever it is given. -/
def okUpsert : List KeyPoint → List (List ℚ) → Except String Nat :=
  fun _ embeddings => Except.ok embeddings.length

/-! ## Theorems -/

/-- C1 counterexample: running the spec's end-to-end scenario through the
code, the final store after Delta3 does *not* have 0 active and 1
archived entry with ledger sizes [1, 1, 0]. -/
theorem spec_C1_cex :
    ¬ ((activeEntries scenStep3.1).length = 0 ∧
       (archivedEntries scenStep3.1).length = 1 ∧
       scenSizes = [1, 1, 0]) := by
  decide

/-- C1 (amended): Delta1 and Delta2 behave as claimed (one active entry
`kpt_001` at score 0, then score 1 with one evaluation record), but
Delta3's retention check reads the pre-update score (1 > -5), so it
stages only the two score updates and archives nothing; after Delta3 the
store has 1 active and 0 archived entries, the entry's score is -5, and
the three ledger records report sizes [1, 1, 1] because the recorded
size counts archived entries too.  A fourth, empty cycle then stages the
archive (pre-update score -5 ≤ -5), leaving 0 active and 1 archived
entry. -/
theorem spec_C1 :
    (activeEntries scenStep1.1).map (fun kp => (kp.name, kp.score)) =
      [("kpt_001", 0)] ∧
    scenStep2.1.key_points.map
        (fun kp => (kp.name, kp.score, kp.evaluations.length)) =
      [("kpt_001", 1, 1)] ∧
    (build_delta scenStep2.1 scenEx3 "session_end" "t3"
        default_config).operations =
      [.score_update "kpt_001" (-3) "harmful" "",
       .score_update "kpt_001" (-3) "harmful" ""] ∧
    scenStep3.1.key_points.map (fun kp => (kp.name, kp.score, kp.status)) =
      [("kpt_001", -5, some "active")] ∧
    scenSizes = [1, 1, 1] ∧
    (build_delta scenStep3.1 scenEx4 "session_end" "t4"
        default_config).operations =
      [.archive "kpt_001" "Score -5 below threshold -5"] ∧
    (activeEntries scenStep4.1).length = 0 ∧
    (archivedEntries scenStep4.1).length = 1 ∧
    scenStep4.2.playbook_size = 1 := by
  decide

/-- C2 counterexample: the ledger's `playbook_size` for a snapshot with
one active and one archived entry is 2, not the claimed count of active
entries (1). -/
theorem spec_C2_cex :
    (record_delta emptyDelta mixedSnapshot).playbook_size ≠
      (activeEntries mixedSnapshot).length := by
  decide

/-- C2 (amended): the recorded store size is the *total* number of
entries, archived included; the recorded average is the mean score over
active entries only (0.0 when there are none), so the mixed [+5 active,
-10 archived] snapshot reports average 5.0 and size 2. -/
theorem spec_C2 :
    (∀ (delta : PlaybookDelta) (snapshot : Playbook),
      (record_delta delta snapshot).playbook_size =
        snapshot.key_points.length ∧
      (activeEntries snapshot ≠ [] →
        (record_delta delta snapshot).avg_score =
          (((activeEntries snapshot).map KeyPoint.score).sum : ℚ) /
            ((activeEntries snapshot).length : ℚ)) ∧
      (activeEntries snapshot = [] →
        (record_delta delta snapshot).avg_score = 0)) ∧
    (record_delta emptyDelta mixedSnapshot).avg_score = 5 ∧
    (record_delta emptyDelta mixedSnapshot).playbook_size = 2 := by
  have hmain : ∀ (delta : PlaybookDelta) (snapshot : Playbook),
      (record_delta delta snapshot).playbook_size =
        snapshot.key_points.length ∧
      (activeEntries snapshot ≠ [] →
        (record_delta delta snapshot).avg_score =
          (((activeEntries snapshot).map KeyPoint.score).sum : ℚ) /
            ((activeEntries snapshot).length : ℚ)) ∧
      (activeEntries snapshot = [] →
        (record_delta delta snapshot).avg_score = 0) := by
    refine fun delta snapshot => ⟨rfl, ?_, ?_⟩
    · intro h
      have hk : ¬ snapshot.key_points = [] := by
        intro hk
        exact h (by simp [activeEntries, hk])
      show calculate_avg_score snapshot = _
      rw [calculate_avg_score, if_neg hk]
      rw [activeEntries] at h
      simp only [if_neg h]
      rfl
    · intro h
      show calculate_avg_score snapshot = 0
      rw [activeEntries] at h
      by_cases hk : snapshot.key_points = []
      · rw [calculate_avg_score, if_pos hk]
      · rw [calculate_avg_score, if_neg hk]
        rw [if_pos h]
  refine ⟨hmain, ?_, by decide⟩
  have h := (hmain emptyDelta mixedSnapshot).2.1 (by decide)
  rw [h]
  have h2 : ((activeEntries mixedSnapshot).map KeyPoint.score).sum = 5 := by
    decide
  have h3 : (activeEntries mixedSnapshot).length = 1 := by decide
  rw [h2, h3]
  norm_num

/-- C2 witness: the amended theorem applied to the mixed snapshot. -/
theorem spec_C2_witness :
    (record_delta emptyDelta mixedSnapshot).avg_score =
      (((activeEntries mixedSnapshot).map KeyPoint.score).sum : ℚ) /
        ((activeEntries mixedSnapshot).length : ℚ) :=
  (spec_C2.1 emptyDelta mixedSnapshot).2.1 (by decide)

/-- C3 counterexample: re-archiving the already-archived `kpt_001` with
a later delta does change the entry — its `archived_at` becomes the new
timestamp `t2` and its `archive_reason` the new reason `r2`. -/
theorem spec_C3_cex :
    (apply_delta cexArchStore cexArchDelta).key_points[0]? ≠
      cexArchStore.key_points[0]? ∧
    (apply_delta cexArchStore cexArchDelta).key_points.map
        KeyPoint.archived_at = [some "t2"] ∧
    (apply_delta cexArchStore cexArchDelta).key_points.map
        KeyPoint.archive_reason = [some "r2"] := by
  decide

/-- C3 (amended): an `Archive(n, r)` applied to a store whose entry at
position `i` is already archived leaves the entry's status archived and
every other field (name, text, score, evaluations, ...) unchanged, but
*overwrites* `archived_at` with the new delta's timestamp and
`archive_reason` with the new reason — the source re-applies the archive
assignments without testing for a previous archival. -/
theorem spec_C3 :
    ∀ (S : Playbook) (ts src n r : String) (i : Nat) (kp : KeyPoint),
      S.key_points[i]? = some kp → kp.status = some "archived" →
      kp.name = n →
      (apply_delta S ⟨ts, src, [.archive n r]⟩).key_points[i]? =
        some { kp with archived_at := some ts, archive_reason := some r } := by
  intro S ts src n r i kp hi hstat hname
  show (applyOps ts [.archive n r] S.key_points)[i]? = _
  rw [applyOps, List.foldl_cons, List.foldl_nil]
  show (S.key_points.map (archSet ts n r))[i]? = _
  rw [List.getElem?_map, hi, Option.map_some']
  rw [archSet, if_pos hname]
  cases kp with
  | mk name text score status c rs aa ar ev as ev2 =>
    simp only [KeyPoint.mk.injEq] at hstat ⊢
    simp_all

/-- C3 witness: the amended theorem applied to the concrete archived
store with a fresh timestamp and reason. -/
theorem spec_C3_witness :
    (apply_delta cexArchStore
        ⟨"t9", "s9", [.archive "kpt_001" "r9"]⟩).key_points[0]? =
      some { cexArchKp with archived_at := some "t9",
                            archive_reason := some "r9" } :=
  spec_C3 cexArchStore "t9" "s9" "kpt_001" "r9" 0 cexArchKp rfl rfl rfl

/-- Every operation staged by the retention policy is an archive. -/
theorem retention_not_add {kps : List KeyPoint} {threshold : Int} :
    ∀ op ∈ retention_ops kps threshold, op.isAdd = false := by
  intro op hop
  rw [retention_ops] at hop
  obtain ⟨kp, -, heq⟩ := List.mem_filterMap.mp hop
  by_cases hc : kp.status ≠ some "archived" ∧ kp.score ≤ threshold
  · rw [if_pos hc] at heq
    cases heq
    rfl
  · rw [if_neg hc] at heq
    cases heq

/-- C5: a candidate whose normalized text equals some *active* entry's
normalized text is dropped before any `add` is staged (the built delta
contains no add operation at all for a single such candidate); a
non-empty candidate whose normalized text matches no active entry —
in particular one matching only archived entries — is staged as the
first operation of the delta, as a fresh `add` under the next generated
name. -/
theorem spec_C5 :
    ∀ (playbook : Playbook) (item : NewKeyPoint) (source ts : String)
      (config : AceConfig),
      ((∃ kp ∈ playbook.key_points, kp.status ≠ some "archived" ∧
          normText kp.text = normText item.text) →
        ∀ op ∈ (build_delta playbook ⟨[item], []⟩ source ts config).operations,
          op.isAdd = false) ∧
      (item.text ≠ "" →
        (∀ kp ∈ playbook.key_points, kp.status ≠ some "archived" →
          normText kp.text ≠ normText item.text) →
        (build_delta playbook ⟨[item], []⟩ source ts
            config).operations.head? =
          some (.add
            (generate_keypoint_name (playbook.key_points.map KeyPoint.name))
            { name := generate_keypoint_name
                (playbook.key_points.map KeyPoint.name),
              text := item.text, score := 0,
              atomicity_score := item.atomicity_score,
              evidence := if item.evidence = "" then none
                          else some item.evidence }
            ("Extracted from " ++ source))) := by
  intro playbook item source ts config
  constructor
  · intro hdup op hop
    simp only [build_delta, List.foldl_cons, List.foldl_nil] at hop
    have hmem : normText item.text ∈
        (playbook.key_points.filter
          (fun kp => kp.status ≠ some "archived")).map
          (fun kp => normText kp.text) := by
      obtain ⟨kp, hkp, hst, heq⟩ := hdup
      exact heq ▸
        List.mem_map_of_mem _ (List.mem_filter.mpr ⟨hkp, by simpa using hst⟩)
    by_cases htxt : item.text = ""
    · rw [addStep, if_pos htxt] at hop
      simp only [scoreOps, List.filterMap_nil, List.nil_append] at hop
      exact retention_not_add op hop
    · rw [addStep, if_neg htxt, if_pos hmem] at hop
      simp only [scoreOps, List.filterMap_nil, List.nil_append] at hop
      exact retention_not_add op hop
  · intro htxt hnodup
    simp only [build_delta, List.foldl_cons, List.foldl_nil]
    have hnm : normText item.text ∉
        (playbook.key_points.filter
          (fun kp => kp.status ≠ some "archived")).map
          (fun kp => normText kp.text) := by
      intro hmem
      obtain ⟨kp, hkpf, heq⟩ := List.mem_map.mp hmem
      obtain ⟨hkp, hst⟩ := List.mem_filter.mp hkpf
      exact hnodup kp hkp (by simpa using hst) heq
    rw [addStep, if_neg htxt, if_neg hnm]
    rfl

/-- C5 witness: with one active entry whose text differs only in case
and whitespace from the first candidate, that candidate is rejected; a
candidate matching only an archived entry's text is staged as an add. -/
theorem spec_C5_witness :
    ((∀ op ∈ (build_delta
        { key_points := [{ name := "kpt_001",
                           text := "Run tests before pushing",
                           status := some "active" }] }
        ⟨[{ text := "  run TESTS before pushing " }], []⟩ "session_end" "t"
        default_config).operations, op.isAdd = false) ∧
      (build_delta
        { key_points := [{ name := "kpt_001",
                           text := "Run tests before pushing",
                           status := some "archived" }] }
        ⟨[{ text := "Run tests before pushing" }], []⟩ "session_end" "t"
        default_config).operations.head? =
        some (.add "kpt_002"
          { name := "kpt_002", text := "Run tests before pushing",
            score := 0, atomicity_score := none, evidence := none }
          "Extracted from session_end")) := by
  constructor
  · exact (spec_C5
      { key_points := [{ name := "kpt_001",
                         text := "Run tests before pushing",
                         status := some "active" }] }
      { text := "  run TESTS before pushing " } "session_end" "t"
      default_config).1 (by decide)
  · have h := (spec_C5
      { key_points := [{ name := "kpt_001",
                         text := "Run tests before pushing",
                         status := some "archived" }] }
      { text := "Run tests before pushing" } "session_end" "t"
      default_config).2 (by decide) (by decide)
    rw [h]
    decide

/-- C6: the retention policy stages an archive for the name `n` exactly
when some entry named `n` is not archived and has score at most the
threshold (so an entry at exactly the threshold is archived and one a
point above is not), and the default configured threshold is -5. -/
theorem spec_C6 :
    default_config.reflection.auto_cleanup_threshold = -5 ∧
    ∀ (kps : List KeyPoint) (threshold : Int) (n : String),
      (∃ r, Operation.archive n r ∈ retention_ops kps threshold) ↔
      ∃ kp ∈ kps, kp.name = n ∧ kp.status ≠ some "archived" ∧
        kp.score ≤ threshold := by
  refine ⟨rfl, fun kps threshold n => ⟨?_, ?_⟩⟩
  · rintro ⟨r, hr⟩
    rw [retention_ops] at hr
    obtain ⟨kp, hmem, heq⟩ := List.mem_filterMap.mp hr
    by_cases hc : kp.status ≠ some "archived" ∧ kp.score ≤ threshold
    · rw [if_pos hc] at heq
      obtain ⟨hn, -⟩ := Operation.archive.inj (Option.some.inj heq)
      exact ⟨kp, hmem, hn, hc⟩
    · rw [if_neg hc] at heq
      cases heq
  · rintro ⟨kp, hmem, hn, hst, hsc⟩
    refine ⟨"Score " ++ toString kp.score ++ " below threshold " ++
      toString threshold, ?_⟩
    rw [retention_ops]
    refine List.mem_filterMap.mpr ⟨kp, hmem, ?_⟩
    rw [if_pos ⟨hst, hsc⟩, hn]

/-- C6 witness: an active entry at exactly the default threshold -5 is
staged for archival. -/
theorem spec_C6_witness :
    ∃ r, Operation.archive "kpt_009" r ∈ retention_ops [lowKp] (-5) :=
  (spec_C6.2 [lowKp] (-5) "kpt_009").mpr
    ⟨lowKp, by simp, rfl, by decide, by decide⟩

/-- The name-generation fold stays at or below a bound respected by all
parsed names. -/
theorem kptFold_le {B : Int} :
    ∀ {l : List String} {acc : Int}, acc ≤ B →
      (∀ n ∈ l, (kptNum? n).getD 0 ≤ B) → l.foldl kptFold acc ≤ B := by
  intro l
  induction l with
  | nil => intro acc ha _; exact ha
  | cons n rest ih =>
    intro acc ha hb
    rw [List.foldl_cons]
    refine ih ?_ (fun m hm => hb m (List.mem_cons_of_mem n hm))
    rw [kptFold]
    cases h : kptNum? n with
    | none => exact ha
    | some v =>
      have hv := hb n (List.mem_cons_self n rest)
      rw [h] at hv
      exact max_le ha hv

/-- The name-generation fold never drops below its accumulator. -/
theorem kptFold_ge_init :
    ∀ {l : List String} {acc : Int}, acc ≤ l.foldl kptFold acc := by
  intro l
  induction l with
  | nil => intro acc; exact le_refl acc
  | cons n rest ih =>
    intro acc
    rw [List.foldl_cons]
    refine le_trans ?_ ih
    rw [kptFold]
    cases kptNum? n with
    | none => exact le_refl acc
    | some v => exact le_max_left acc v

/-- A parsed member bounds the name-generation fold from below. -/
theorem kptFold_ge_mem {v : Int} {m : String} :
    ∀ {l : List String} {acc : Int}, m ∈ l → kptNum? m = some v →
      v ≤ l.foldl kptFold acc := by
  intro l
  induction l with
  | nil => intro acc h _; cases h
  | cons n rest ih =>
    intro acc h hv
    rw [List.foldl_cons]
    rcases List.mem_cons.mp h with h1 | h2
    · subst h1
      refine le_trans ?_ kptFold_ge_init
      rw [kptFold, hv]
      exact le_max_right acc v
    · exact ih h2 hv

/-- C7: whenever `kpt_007` is present and every parsed `kpt_N` number in
the set is at most 7, the generated name is `kpt_008` — the maximum plus
one, zero-padded to three digits, regardless of gaps. -/
theorem spec_C7 :
    ∀ (names : List String),
      "kpt_007" ∈ names →
      (∀ n ∈ names, (kptNum? n).getD 0 ≤ 7) →
      generate_keypoint_name names = "kpt_008" := by
  intro names hmem hb
  have h7 : kptNum? "kpt_007" = some 7 := by decide
  have heq : names.foldl kptFold 0 = 7 :=
    le_antisymm (kptFold_le (by decide) hb) (kptFold_ge_mem hmem h7)
  rw [generate_keypoint_name, heq]
  decide

/-- C7 witness: a gappy name set whose maximum is `kpt_007`. -/
theorem spec_C7_witness :
    generate_keypoint_name ["kpt_001", "kpt_003", "kpt_007", "misc"] =
      "kpt_008" :=
  spec_C7 ["kpt_001", "kpt_003", "kpt_007", "misc"] (by decide) (by decide)

/-- One delta operation keeps an archived entry archived and keeps its
name, whatever the operation is. -/
theorem applyOp_tracks {ts : String} {op : Operation} {kps : List KeyPoint}
    {i : Nat} {kp : KeyPoint} (hi : kps[i]? = some kp)
    (hs : kp.status = some "archived") :
    ∃ kp2, (applyOp ts kps op)[i]? = some kp2 ∧ kp2.name = kp.name ∧
      kp2.status = some "archived" := by
  cases op with
  | add t d r =>
    rw [applyOp]
    by_cases h : ∃ k ∈ kps, k.name = t
    · rw [if_pos h]
      exact ⟨kp, hi, rfl, hs⟩
    · rw [if_neg h]
      have hlt : i < kps.length := (List.getElem?_eq_some.mp hi).1
      exact ⟨kp, by rw [List.getElem?_append_left hlt]; exact hi, rfl, hs⟩
  | archive t r =>
    refine ⟨archSet ts t r kp, ?_, ?_, ?_⟩
    · show (kps.map (archSet ts t r))[i]? = _
      rw [List.getElem?_map, hi, Option.map_some']
    · rw [archSet]
      split <;> rfl
    · rw [archSet]
      split
      · rfl
      · exact hs
  | score_update t d rt j =>
    refine ⟨scoreSet ts t d rt j kp, ?_, ?_, ?_⟩
    · show (kps.map (scoreSet ts t d rt j))[i]? = _
      rw [List.getElem?_map, hi, Option.map_some']
    · rw [scoreSet]
      split <;> rfl
    · rw [scoreSet]
      split <;> exact hs

/-- A whole operation list keeps an archived entry archived and keeps
its name. -/
theorem applyOps_tracks {ts : String} :
    ∀ {ops : List Operation} {kps : List KeyPoint} {i : Nat} {kp : KeyPoint},
      kps[i]? = some kp → kp.status = some "archived" →
      ∃ kp2, (applyOps ts ops kps)[i]? = some kp2 ∧ kp2.name = kp.name ∧
        kp2.status = some "archived" := by
  intro ops
  induction ops with
  | nil => intro kps i kp hi hs; exact ⟨kp, hi, rfl, hs⟩
  | cons op rest ih =>
    intro kps i kp hi hs
    obtain ⟨kp1, h1, hn1, hs1⟩ := @applyOp_tracks ts op kps i kp hi hs
    obtain ⟨kp2, h2, hn2, hs2⟩ := ih h1 hs1
    exact ⟨kp2, h2, hn2.trans hn1, hs2⟩

/-- C8: archival is monotonic — an entry that is archived before a delta
is still archived (same name, archived status) at the same position
after the delta, for any operation list; and an `add` whose target name
already exists leaves the key-point list entirely unchanged. -/
theorem spec_C8 :
    (∀ (S : Playbook) (D : PlaybookDelta) (i : Nat) (kp : KeyPoint),
      S.key_points[i]? = some kp → kp.status = some "archived" →
      ∃ kp2, (apply_delta S D).key_points[i]? = some kp2 ∧
        kp2.name = kp.name ∧ kp2.status = some "archived") ∧
    (∀ (ts : String) (kps : List KeyPoint) (t : String) (data : KeyPoint)
      (r : String), (∃ k ∈ kps, k.name = t) →
      applyOp ts kps (.add t data r) = kps) := by
  constructor
  · intro S D i kp hi hs
    exact applyOps_tracks hi hs
  · intro ts kps t data r h
    rw [applyOp, if_pos h]

/-- C8 witness: the archived `kpt_001` stays archived under a delta that
re-adds, score-updates and re-archives it. -/
theorem spec_C8_witness :
    ∃ kp2, (apply_delta cexArchStore
        ⟨"t3", "s3", [.add "kpt_001" cexReplayKp "again",
                      .score_update "kpt_001" 5 "helpful" "",
                      .archive "kpt_001" "rearchive"]⟩).key_points[0]? =
        some kp2 ∧ kp2.name = cexArchKp.name ∧
      kp2.status = some "archived" :=
  spec_C8.1 cexArchStore
    ⟨"t3", "s3", [.add "kpt_001" cexReplayKp "again",
                  .score_update "kpt_001" 5 "helpful" "",
                  .archive "kpt_001" "rearchive"]⟩ 0 cexArchKp rfl rfl

/-- C9: retrieval degrades to an empty result without raising — a
disabled coordinator returns `[]`, a Qdrant backend returns `[]` when
the query embedding raises, returns `None` or returns an empty vector,
or when the store search raises, and a ChromaDB backend returns `[]`
when its query raises.  (Totality of `PlaybookVectorStore.search`
models "never raises": every failure is caught and mapped to `[]`.) -/
theorem spec_C9 :
    ∀ (q : String) (limit : Nat) (ms : Option Int),
      (∀ st : PlaybookVectorStore, st.backend = none →
        st.search q limit ms = []) ∧
      (∀ (c : QdrantClients) (bt : String),
        ((∃ e, c.embed_text q = .error e) ∨ c.embed_text q = .ok none ∨
          c.embed_text q = .ok (some [])) →
        PlaybookVectorStore.search ⟨some (.qdrant c), bt⟩ q limit ms = []) ∧
      (∀ (c : QdrantClients) (bt : String) (qe : List ℚ) (e : String),
        c.embed_text q = .ok (some qe) →
        c.store_search qe limit ms = .error e →
        PlaybookVectorStore.search ⟨some (.qdrant c), bt⟩ q limit ms = []) ∧
      (∀ (c : ChromaClients) (bt : String) (e : String),
        c.query q limit ms = .error e →
        PlaybookVectorStore.search ⟨some (.chroma c), bt⟩ q limit ms = []) := by
  intro q limit ms
  refine ⟨?_, ?_, ?_, ?_⟩
  · intro st h
    rw [PlaybookVectorStore.search, h]
  · intro c bt h
    show search_qdrant c q limit ms = []
    rcases h with ⟨e, he⟩ | he | he <;>
      simp [search_qdrant, he, Bind.bind, Except.bind]
  · intro c bt qe e hemb hsearch
    show search_qdrant c q limit ms = []
    cases qe with
    | nil => simp [search_qdrant, hemb, Bind.bind, Except.bind]
    | cons x xs =>
      simp [search_qdrant, hemb, hsearch, Bind.bind, Except.bind,
        Functor.map, Except.map]
  · intro c bt e h
    show search_chroma c q limit ms = []
    simp [search_chroma, h, Bind.bind, Except.bind]

/-- C9 witness: the three concrete failing backends and the disabled
coordinator all return the empty result. -/
theorem spec_C9_witness :
    disabledStore.search "query" 10 none = [] ∧
    PlaybookVectorStore.search ⟨some (.qdrant embedDownQdrant), "qdrant"⟩
      "query" 10 none = [] ∧
    PlaybookVectorStore.search ⟨some (.qdrant storeDownQdrant), "qdrant"⟩
      "query" 10 none = [] ∧
    PlaybookVectorStore.search ⟨some (.chroma failingChroma), "chroma"⟩
      "query" 10 none = [] :=
  ⟨(spec_C9 "query" 10 none).1 disabledStore rfl,
   (spec_C9 "query" 10 none).2.1 embedDownQdrant "qdrant"
     (Or.inl ⟨"Cannot connect to Ollama", rfl⟩),
   (spec_C9 "query" 10 none).2.2.1 storeDownQdrant "qdrant" [1, 0]
     "Cannot connect to Qdrant" rfl rfl,
   (spec_C9 "query" 10 none).2.2.2 failingChroma "chroma"
     "collection unavailable" rfl⟩

/-- Flattening the batch slices recovers the original list. -/
theorem chunksOfAux_flatten {α : Type} {bs : Nat} (hbs : 0 < bs) :
    ∀ (fuel : Nat) (l : List α), l.length ≤ fuel →
      (chunksOfAux bs fuel l).flatten = l := by
  intro fuel
  induction fuel with
  | zero =>
    intro l hl
    rw [List.length_eq_zero.mp (Nat.le_zero.mp hl)]
    rfl
  | succ f ih =>
    intro l hl
    cases l with
    | nil => rfl
    | cons x xs =>
      rw [chunksOfAux, List.flatten_cons]
      rw [ih ((x :: xs).drop bs) ?_]
      · exact List.take_append_drop bs (x :: xs)
      · rw [List.length_drop]
        simp only [List.length_cons] at hl ⊢
        omega

/-- Flatten-map-filterMap fusion. -/
theorem flatten_filterMap {α β : Type} (f : α → Option β) :
    ∀ (L : List (List α)),
      (L.map (fun b => b.filterMap f)).flatten = L.flatten.filterMap f := by
  intro L
  induction L with
  | nil => rfl
  | cons a rest ih =>
    rw [List.map_cons, List.flatten_cons, List.flatten_cons,
      List.filterMap_append, ih]

/-- `embed_batch` over a per-text outcome is the order-preserving
filter of the successful outcomes, whatever the (positive) batch size:
batching never reorders or pads the result list. -/
theorem embed_batch_filterMap {bs : Nat} (hbs : 0 < bs)
    (outcome : String → Option EmbeddingResult) (texts : List String) :
    embed_batch outcome texts bs = texts.filterMap outcome := by
  by_cases h : texts = []
  · rw [h, embed_batch, if_pos rfl]
    rfl
  · rw [embed_batch, if_neg h]
    have hpb : ∀ b : List String,
        process_batch (b.map outcome) = b.filterMap outcome := by
      intro b
      rw [process_batch, List.filterMap_map]
      rfl
    calc ((chunksOf bs texts).map
            (fun b => process_batch (b.map outcome))).flatten
        = ((chunksOf bs texts).map (fun b => b.filterMap outcome)).flatten := by
          rw [List.map_congr_left (fun b _ => hpb b)]
      _ = (chunksOf bs texts).flatten.filterMap outcome :=
          flatten_filterMap outcome (chunksOf bs texts)
      _ = texts.filterMap outcome := by
          rw [chunksOf, chunksOfAux_flatten hbs texts.length texts (le_refl _)]

/-- Dropping at least one `none` makes the filtered list strictly
shorter. -/
theorem filterMap_length_lt {α β : Type} {f : α → Option β} {a : α} :
    ∀ {l : List α}, a ∈ l → f a = none →
      (l.filterMap f).length < l.length := by
  intro l
  induction l with
  | nil => intro h; cases h
  | cons x xs ih =>
    intro h hnone
    rcases List.mem_cons.mp h with h1 | h2
    · subst h1
      rw [List.filterMap_cons, hnone, List.length_cons]
      exact Nat.lt_succ_of_le (List.length_filterMap_le f xs)
    · rw [List.filterMap_cons, List.length_cons]
      cases hfx : f x with
      | none => exact Nat.lt_succ_of_lt (ih h2 hnone)
      | some b =>
        rw [List.length_cons]
        exact Nat.succ_lt_succ (ih h2 hnone)

/-- C10: if any strategy text fails to embed after the provider's
retries (so the filtered batch result is shorter than the strategy
list), `_do_index` raises the count-mismatch error before reaching the
upsert — for *every* possible upsert function — and the indexing call
returns 0 instead of upserting the successfully embedded entries. -/
theorem spec_C10 :
    ∀ (strategies : List KeyPoint)
      (outcome : String → Option EmbeddingResult)
      (upsert : List KeyPoint → List (List ℚ) → Except String Nat),
      (∃ s ∈ strategies, outcome s.text = none) →
      index_qdrant outcome upsert strategies = 0 ∧
      ∀ g, do_index outcome g strategies =
        Except.error "Embedding count mismatch" := by
  rintro strategies outcome upsert ⟨s, hs, hnone⟩
  have hlen : (embed_batch outcome (strategies.map (fun s => s.text))
      10).length < strategies.length := by
    rw [embed_batch_filterMap (by norm_num)]
    have h := filterMap_length_lt
      (List.mem_map_of_mem (fun s => s.text) hs) hnone
    rw [List.length_map] at h
    exact h
  have hne : (embed_batch outcome (strategies.map (fun s => s.text))
      10).length ≠ strategies.length := Nat.ne_of_lt hlen
  have herr : ∀ g, do_index outcome g strategies =
      Except.error "Embedding count mismatch" := by
    intro g
    show (if _ ≠ _ then _ else _) = _
    rw [if_pos hne]
  refine ⟨?_, herr⟩
  rw [index_qdrant, herr upsert]

/-- C10 witness: one strategy whose text fails to embed; indexing
returns 0. -/
theorem spec_C10_witness :
    index_qdrant noEmbed okUpsert [lowKp] = 0 :=
  (spec_C10 [lowKp] noEmbed okUpsert
    ⟨lowKp, List.mem_singleton.mpr rfl, rfl⟩).1

/-- Archiving never renames an entry. -/
theorem archSet_name (ts t r : String) (kp : KeyPoint) :
    (archSet ts t r kp).name = kp.name := by
  rw [archSet]
  split <;> rfl

/-- Score updates never rename an entry. -/
theorem scoreSet_name (ts t : String) (d : Int) (rt j : String)
    (kp : KeyPoint) : (scoreSet ts t d rt j kp).name = kp.name := by
  rw [scoreSet]
  split <;> rfl

/-- An archive pass leaves the name column unchanged. -/
theorem map_name_archSet (ts t r : String) (kps : List KeyPoint) :
    (kps.map (archSet ts t r)).map KeyPoint.name = kps.map KeyPoint.name := by
  rw [List.map_map]
  exact List.map_congr_left (fun kp _ => archSet_name ts t r kp)

/-- A score-update pass leaves the name column unchanged. -/
theorem map_name_scoreSet (ts t : String) (d : Int) (rt j : String)
    (kps : List KeyPoint) :
    (kps.map (scoreSet ts t d rt j)).map KeyPoint.name =
      kps.map KeyPoint.name := by
  rw [List.map_map]
  exact List.map_congr_left (fun kp _ => scoreSet_name ts t d rt j kp)

/-- The set of entry names only grows under delta operations. -/
theorem mem_names_applyOp {n ts : String} {kps : List KeyPoint}
    (op : Operation) (h : n ∈ kps.map KeyPoint.name) :
    n ∈ (applyOp ts kps op).map KeyPoint.name := by
  cases op with
  | add t d r =>
    rw [applyOp]
    split
    · exact h
    · rw [List.map_append]
      exact List.mem_append_left _ h
  | archive t r =>
    show n ∈ (kps.map (archSet ts t r)).map KeyPoint.name
    rw [map_name_archSet]
    exact h
  | score_update t d rt j =>
    show n ∈ (kps.map (scoreSet ts t d rt j)).map KeyPoint.name
    rw [map_name_scoreSet]
    exact h

/-- The set of entry names only grows under a whole operation list. -/
theorem mem_names_applyOps {n ts : String} :
    ∀ {ops : List Operation} {kps : List KeyPoint},
      n ∈ kps.map KeyPoint.name →
      n ∈ (applyOps ts ops kps).map KeyPoint.name := by
  intro ops
  induction ops with
  | nil => intro kps h; exact h
  | cons op rest ih => intro kps h; exact ih (mem_names_applyOp op h)

/-- After its own `add` runs, the target is an entry name — provided the
payload carries the target as its name. -/
theorem add_target_mem {ts t r : String} {d : KeyPoint}
    {kps : List KeyPoint} (hdn : d.name = t) :
    t ∈ (applyOp ts kps (.add t d r)).map KeyPoint.name := by
  rw [applyOp]
  split
  · next h =>
    obtain ⟨kp, hkp, hn⟩ := h
    exact List.mem_map.mpr ⟨kp, hkp, hn⟩
  · rw [List.map_append]
    refine List.mem_append_right _ ?_
    rw [List.map_cons, List.map_nil]
    exact List.mem_singleton.mpr hdn.symm

/-- After a full pass of a payload-well-formed operation list, every add
target is an entry name. -/
theorem addTargets_mem_applyOps {ts : String} :
    ∀ {ops : List Operation} {kps : List KeyPoint},
      (∀ op ∈ ops, op.addNameOk = true) →
      ∀ t ∈ addTargets ops, t ∈ (applyOps ts ops kps).map KeyPoint.name := by
  intro ops
  induction ops with
  | nil =>
    intro kps _ t ht
    simp [addTargets] at ht
  | cons op rest ih =>
    intro kps hWF t ht
    cases op with
    | add u d r =>
      have hdn : d.name = u :=
        of_decide_eq_true (hWF _ (List.mem_cons_self _ _))
      have ht' : t ∈ u :: addTargets rest := ht
      rcases List.mem_cons.mp ht' with h1 | h2
      · subst h1
        exact @mem_names_applyOps t ts rest _ (add_target_mem hdn)
      · exact ih (fun o ho => hWF o (List.mem_cons_of_mem _ ho)) t h2
    | archive u r =>
      exact ih (fun o ho => hWF o (List.mem_cons_of_mem _ ho)) t ht
    | score_update u d rt j =>
      exact ih (fun o ho => hWF o (List.mem_cons_of_mem _ ho)) t ht

/-- An `add` whose target already names an entry is a no-op. -/
theorem applyOp_add_of_mem {ts t : String} {d : KeyPoint} {r : String}
    {kps : List KeyPoint} (h : t ∈ kps.map KeyPoint.name) :
    applyOp ts kps (.add t d r) = kps := by
  rw [applyOp, if_pos]
  obtain ⟨kp, hkp, hn⟩ := List.mem_map.mp h
  exact ⟨kp, hkp, hn⟩

/-- When every add target already names an entry, a pass of an
add/archive operation list is just its archive sub-list. -/
theorem applyOps_eq_archFold {ts : String} :
    ∀ {ops : List Operation} {kps : List KeyPoint},
      (∀ op ∈ ops, op.isAddOrArchive = true) →
      (∀ t ∈ addTargets ops, t ∈ kps.map KeyPoint.name) →
      applyOps ts ops kps =
        (archPairs ops).foldl
          (fun ks p => ks.map (archSet ts p.1 p.2)) kps := by
  intro ops
  induction ops with
  | nil => intro kps _ _; rfl
  | cons op rest ih =>
    intro kps hAA hmem
    cases op with
    | add t d r =>
      have ht : t ∈ kps.map KeyPoint.name :=
        hmem t (List.mem_cons_self _ _)
      show applyOps ts rest (applyOp ts kps (.add t d r)) = _
      rw [applyOp_add_of_mem ht]
      exact ih (fun o ho => hAA o (List.mem_cons_of_mem _ ho))
        (fun u hu => hmem u (List.mem_cons_of_mem _ hu))
    | archive t r =>
      show applyOps ts rest (kps.map (archSet ts t r)) = _
      exact ih (fun o ho => hAA o (List.mem_cons_of_mem _ ho))
        (fun u hu => by
          show u ∈ (kps.map (archSet ts t r)).map KeyPoint.name
          rw [map_name_archSet]
          exact hmem u hu)
    | score_update t d rt j =>
      have := hAA _ (List.mem_cons_self _ _)
      rw [Operation.isAddOrArchive] at this
      cases this

/-- A fold of archive passes is a single pointwise pass. -/
theorem archFold_eq_map {ts : String} :
    ∀ (pairs : List (String × String)) (kps : List KeyPoint),
      pairs.foldl (fun ks p => ks.map (archSet ts p.1 p.2)) kps =
        kps.map (archListApply ts pairs) := by
  intro pairs
  induction pairs with
  | nil =>
    intro kps
    rw [List.foldl_nil]
    exact (List.map_id' kps).symm
  | cons p rest ih =>
    intro kps
    rw [List.foldl_cons, ih, List.map_map]
    rfl

/-- Archive pairs never rename an entry. -/
theorem archListApply_name {ts : String} :
    ∀ {pairs : List (String × String)} {kp : KeyPoint},
      (archListApply ts pairs kp).name = kp.name := by
  intro pairs
  induction pairs with
  | nil => intro kp; rfl
  | cons p rest ih =>
    intro kp
    show (archListApply ts rest (archSet ts p.1 p.2 kp)).name = kp.name
    rw [ih, archSet_name]

/-- Applying a list of archive pairs to an entry is governed by the
*last* pair targeting the entry's name: it alone determines the final
`status`/`archived_at`/`archive_reason`, and no pair touches anything
else. -/
theorem archListApply_eq {ts : String} :
    ∀ (pairs : List (String × String)) (kp : KeyPoint),
      archListApply ts pairs kp =
        match lastMatch kp.name pairs with
        | none => kp
        | some p => { kp with status := some "archived",
                              archived_at := some ts,
                              archive_reason := some p.2 } := by
  intro pairs
  induction pairs using List.reverseRecOn with
  | nil => intro kp; rfl
  | append_singleton init p ih =>
    intro kp
    have hfold : archListApply ts (init ++ [p]) kp =
        archSet ts p.1 p.2 (archListApply ts init kp) := by
      rw [archListApply, List.foldl_append]
      rfl
    have hlast : lastMatch kp.name (init ++ [p]) =
        if p.1 = kp.name then some p else lastMatch kp.name init := by
      rw [lastMatch, List.filter_append]
      by_cases hp : p.1 = kp.name
      · rw [if_pos hp]
        have hone : List.filter (fun q => decide (q.1 = kp.name)) [p] = [p] := by
          simp [hp]
        rw [hone, List.getLast?_concat]
      · rw [if_neg hp]
        have hnone : List.filter (fun q => decide (q.1 = kp.name)) [p] = [] := by
          simp [hp]
        rw [hnone, List.append_nil]
        rfl
    rw [hfold, ih kp, hlast]
    by_cases hp : p.1 = kp.name
    · rw [if_pos hp]
      cases hlm : lastMatch kp.name init with
      | none =>
        rw [archSet, if_pos hp.symm]
      | some q =>
        rw [archSet, if_pos (show _ = p.1 from hp.symm)]
    · rw [if_neg hp]
      cases hlm : lastMatch kp.name init with
      | none =>
        rw [archSet, if_neg (fun hh => hp hh.symm)]
      | some q =>
        rw [archSet, if_neg (show ¬ _ = p.1 from fun hh => hp hh.symm)]

/-- Applying the same archive pairs twice is the same as applying them
once. -/
theorem archListApply_fixpoint {ts : String}
    {pairs : List (String × String)} (kp : KeyPoint) :
    archListApply ts pairs (archListApply ts pairs kp) =
      archListApply ts pairs kp := by
  have h1 := @archListApply_eq ts pairs kp
  cases hlm : lastMatch kp.name pairs with
  | none =>
    rw [hlm] at h1
    rw [h1, h1]
  | some q =>
    rw [hlm] at h1
    rw [h1]
    have h2 := @archListApply_eq ts pairs { kp with status := some "archived", archived_at := some ts, archive_reason := some q.2 }
    have hn2 : ({ kp with status := some "archived", archived_at := some ts, archive_reason := some q.2 } : KeyPoint).name = kp.name := rfl
    rw [hn2, hlm] at h2
    rw [h2]

/-- Every entry produced by one pass of an add/archive operation list
(payload-well-formed, no archive before an add of the same target) is a
fixed point of the list's archive pairs. -/
theorem applyOps_elem_fixpoint {ts : String} :
    ∀ {ops : List Operation},
      (∀ op ∈ ops, op.isAddOrArchive = true) →
      (∀ op ∈ ops, op.addNameOk = true) →
      ops.Pairwise (fun a b => noArchThenAddB a b = true) →
      ∀ (kps : List KeyPoint), ∀ kp ∈ applyOps ts ops kps,
        archListApply ts (archPairs ops) kp = kp := by
  intro ops
  induction ops using List.reverseRecOn with
  | nil =>
    intro _ _ _ kps kp _
    rfl
  | append_singleton init op ih =>
    intro hAA hWF hord kps kp hkp
    have hAAi : ∀ o ∈ init, o.isAddOrArchive = true :=
      fun o ho => hAA o (List.mem_append_left _ ho)
    have hWFi : ∀ o ∈ init, o.addNameOk = true :=
      fun o ho => hWF o (List.mem_append_left _ ho)
    have hordi : init.Pairwise (fun a b => noArchThenAddB a b = true) :=
      (List.pairwise_append.mp hord).1
    have hrel : ∀ a ∈ init, noArchThenAddB a op = true :=
      fun a ha => (List.pairwise_append.mp hord).2.2 a ha op
        (List.mem_singleton.mpr rfl)
    have hsplit : applyOps ts (init ++ [op]) kps =
        applyOp ts (applyOps ts init kps) op := by
      rw [applyOps, List.foldl_append]
      rfl
    rw [hsplit] at hkp
    cases op with
    | score_update t d rt j =>
      have := hAA _ (List.mem_append_right _ (List.mem_singleton.mpr rfl))
      rw [Operation.isAddOrArchive] at this
      cases this
    | add t d r =>
      have hap : archPairs (init ++ [.add t d r]) = archPairs init := by
        rw [archPairs, List.filterMap_append]
        show archPairs init ++ [] = archPairs init
        rw [List.append_nil]
      rw [hap]
      simp only [applyOp] at hkp
      split at hkp
      · exact ih hAAi hWFi hordi kps kp hkp
      · rcases List.mem_append.mp hkp with h1 | h2
        · exact ih hAAi hWFi hordi kps kp h1
        · have hkp2 : kp = { d with created_at := some ts, status := some "active", reason := some r } :=
            List.mem_singleton.mp h2
          have hdn : d.name = t :=
            of_decide_eq_true
              (hWF _ (List.mem_append_right _ (List.mem_singleton.mpr rfl)))
          have hname : kp.name = t := by
            rw [hkp2]
            exact hdn
          have hfil : (archPairs init).filter
              (fun q => decide (q.1 = kp.name)) = [] := by
            rw [List.filter_eq_nil_iff]
            intro q hq
            obtain ⟨o, ho, heq⟩ := List.mem_filterMap.mp hq
            cases o with
            | archive a b =>
              cases heq
              have hne : a ≠ t := of_decide_eq_true (hrel _ ho)
              simp only [hname]
              simpa using hne
            | add a b c => exact Option.noConfusion heq
            | score_update a b c e => exact Option.noConfusion heq
          have hnom : lastMatch kp.name (archPairs init) = none := by
            rw [lastMatch, hfil]
            rfl
          rw [archListApply_eq, hnom]
    | archive t r =>
      have hap : archPairs (init ++ [.archive t r]) =
          archPairs init ++ [(t, r)] := by
        rw [archPairs, List.filterMap_append]
        rfl
      rw [hap]
      have hkp2 : kp ∈ (applyOps ts init kps).map (archSet ts t r) := hkp
      obtain ⟨a, ha, rfl⟩ := List.mem_map.mp hkp2
      have iha := ih hAAi hWFi hordi kps a ha
      have hfold : ∀ x : KeyPoint,
          archListApply ts (archPairs init ++ [(t, r)]) x =
            archSet ts t r (archListApply ts (archPairs init) x) := by
        intro x
        rw [archListApply, List.foldl_append]
        rfl
      rw [hfold]
      by_cases hn : a.name = t
      · have hx : archSet ts t r a = { a with status := some "archived", archived_at := some ts, archive_reason := some r } := by
          rw [archSet, if_pos hn]
        rw [hx]
        have h2 := @archListApply_eq ts (archPairs init) { a with status := some "archived", archived_at := some ts, archive_reason := some r }
        have hn2 : ({ a with status := some "archived", archived_at := some ts, archive_reason := some r } : KeyPoint).name = a.name := rfl
        rw [hn2] at h2
        cases hlm : lastMatch a.name (archPairs init) with
        | none =>
          rw [hlm] at h2
          rw [h2, archSet, if_pos (show _ = t from hn)]
        | some q =>
          rw [hlm] at h2
          rw [h2, archSet, if_pos (show _ = t from hn)]
      · have hx : archSet ts t r a = a := by
          rw [archSet, if_neg hn]
        rw [hx, iha, hx]

/-- C4 counterexample: two add/archive-only deltas that are *not*
idempotent under replay.  In the first an `archive` precedes an `add` of
the same target: the first application only inserts the entry (the
archive misses), while the second application archives it.  In the
second the `add` payload is named differently from its target, so a
replay appends a second copy. -/
theorem spec_C4_cex :
    ((∀ op ∈ cexReplayDelta.operations, op.isAddOrArchive = true) ∧
      apply_delta (apply_delta {} cexReplayDelta) cexReplayDelta ≠
        apply_delta {} cexReplayDelta) ∧
    ((∀ op ∈ cexMismatchDelta.operations, op.isAddOrArchive = true) ∧
      apply_delta (apply_delta {} cexMismatchDelta) cexMismatchDelta ≠
        apply_delta {} cexMismatchDelta) := by
  decide

/-- C4 (amended): replaying a delta of only `Add`/`Archive` operations
is a no-op provided the delta is shaped like the ones the builder
produces — every add payload is named after its own target, and no
archive precedes an add of the same target (the builder stages all adds
before all archives and never archives a freshly generated name); and a
delta holding a single `ScoreUpdate` on an existing target is
deliberately not idempotent: replaying it applies the score change
again (doubling the total) and appends a second evaluation record. -/
theorem spec_C4 :
    (∀ (S : Playbook) (D : PlaybookDelta),
      (∀ op ∈ D.operations, op.isAddOrArchive = true) →
      (∀ op ∈ D.operations, op.addNameOk = true) →
      D.operations.Pairwise (fun a b => noArchThenAddB a b = true) →
      apply_delta (apply_delta S D) D = apply_delta S D) ∧
    (∀ (S : Playbook) (ts src t : String) (d : Int) (r j : String)
      (i : Nat) (kp : KeyPoint),
      S.key_points[i]? = some kp → kp.name = t →
      ∃ kp1 kp2,
        (apply_delta S ⟨ts, src, [.score_update t d r j]⟩).key_points[i]? =
          some kp1 ∧
        (apply_delta (apply_delta S ⟨ts, src, [.score_update t d r j]⟩)
            ⟨ts, src, [.score_update t d r j]⟩).key_points[i]? = some kp2 ∧
        kp1.score = kp.score + d ∧
        kp1.evaluations.length = kp.evaluations.length + 1 ∧
        kp2.score = kp.score + 2 * d ∧
        kp2.evaluations.length = kp.evaluations.length + 2) := by
  constructor
  · intro S D hAA hWF hord
    cases S with
    | mk v lu lds kps =>
      have hkey : applyOps D.timestamp D.operations
          (applyOps D.timestamp D.operations kps) =
          applyOps D.timestamp D.operations kps := by
        rw [applyOps_eq_archFold hAA (addTargets_mem_applyOps hWF),
          archFold_eq_map,
          List.map_congr_left
            (fun kp hkp => applyOps_elem_fixpoint hAA hWF hord kps kp hkp),
          List.map_id']
      show (⟨v, some D.timestamp, some D.source,
          applyOps D.timestamp D.operations
            (applyOps D.timestamp D.operations kps)⟩ : Playbook) =
        ⟨v, some D.timestamp, some D.source,
          applyOps D.timestamp D.operations kps⟩
      rw [hkey]
  · intro S ts src t d r j i kp hi hname
    have hname1 : (scoreSet ts t d r j kp).name = t := by
      rw [scoreSet_name]
      exact hname
    refine ⟨scoreSet ts t d r j kp,
      scoreSet ts t d r j (scoreSet ts t d r j kp), ?_, ?_, ?_, ?_, ?_, ?_⟩
    · show (S.key_points.map (scoreSet ts t d r j))[i]? = _
      rw [List.getElem?_map, hi]
      rfl
    · show ((S.key_points.map (scoreSet ts t d r j)).map
          (scoreSet ts t d r j))[i]? = _
      rw [List.getElem?_map, List.getElem?_map, hi]
      rfl
    · rw [scoreSet, if_pos hname]
    · rw [scoreSet, if_pos hname]
      simp
    · rw [scoreSet, if_pos hname1, scoreSet, if_pos hname]
      show kp.score + d + d = kp.score + 2 * d
      ring
    · rw [scoreSet, if_pos hname1, scoreSet, if_pos hname]
      simp

/-- C4 witness: a well-formed add-then-archive delta replays as a no-op
on the empty store, and a concrete score update on `kpt_009` doubles
when replayed. -/
theorem spec_C4_witness :
    (apply_delta (apply_delta {} wfDelta) wfDelta = apply_delta {} wfDelta) ∧
    (∃ kp1 kp2,
      (apply_delta { key_points := [lowKp] }
          ⟨"t6", "s6", [.score_update "kpt_009" 2 "helpful" "good"]⟩
        ).key_points[0]? = some kp1 ∧
      (apply_delta (apply_delta { key_points := [lowKp] }
            ⟨"t6", "s6", [.score_update "kpt_009" 2 "helpful" "good"]⟩)
          ⟨"t6", "s6", [.score_update "kpt_009" 2 "helpful" "good"]⟩
        ).key_points[0]? = some kp2 ∧
      kp1.score = lowKp.score + 2 ∧
      kp1.evaluations.length = lowKp.evaluations.length + 1 ∧
      kp2.score = lowKp.score + 2 * 2 ∧
      kp2.evaluations.length = lowKp.evaluations.length + 2) :=
  ⟨spec_C4.1 {} wfDelta (by decide) (by decide) (by decide),
   spec_C4.2 { key_points := [lowKp] } "t6" "s6" "kpt_009" 2 "helpful"
     "good" 0 lowKp rfl rfl⟩

end Ace
